import Mathlib

/-!
Verification of the stock-price-and-headline dashboard (`main.py`, `database.py`).

The embedding below models, over exact arithmetic (`ℝ` for prices, `ℚ` for
market caps, `ℤ` for calendar day numbers):

* `calculate_returns` (main.py lines 16-24): total return and CAGR of a price
  series between two dates;
* the market-cap formatter (main.py lines 209-217);
* `get_date_range` (main.py lines 64-93): named date windows;
* the per-symbol fetch loop of `main` (main.py lines 98-123) as a pure
  function from a fetch oracle to the collected data and the emitted
  user-visible messages;
* `search_stocks` (database.py lines 3-17);
* the news section of `main` (main.py lines 239-289) and
  `export_news_to_csv` (main.py lines 33-36);
* the nearest-date historical-news fallback, which is described by the
  specification but has no source under `src/`, modelled from the spec.

Python floats are modelled by exact real/rational arithmetic; Python
exceptions by explicit outcome types.
-/

/-- One row of the price table returned by the market-data provider:
the trading day (as a calendar day number) and the closing price.
Only the `Close` column and the index are read by `calculate_returns`. -/
structure PricePoint where
  date : ℤ
  close : ℝ

/-- Embedding of `data.index[data.index >= pd.Timestamp(start_date)][0]`
(main.py line 17): the first row whose date is `>=` the requested start. -/
def select_start (data : List PricePoint) (start_date : ℤ) : Option PricePoint :=
  (data.filter (fun p => decide (start_date ≤ p.date))).head?

/-- Embedding of `data.index[data.index <= pd.Timestamp(end_date)][-1]`
(main.py line 18): the last row whose date is `<=` the requested end. -/
def select_end (data : List PricePoint) (end_date : ℤ) : Option PricePoint :=
  (data.filter (fun p => decide (p.date ≤ end_date))).getLast?

/-- Embedding of `years = (end_date - start_date).days / 365.25`
(main.py line 22). -/
noncomputable def yearsBetween (s e : PricePoint) : ℝ :=
  ((e.date - s.date : ℤ) : ℝ) / 365.25

/-- Embedding of `calculate_returns` (main.py lines 16-24).  The Python code
raises `IndexError` when one of the index selections is empty (the caller at
main.py line 202 catches it); this is modelled by returning `none`.  The real
power `(1 + total_return) ** (1 / years)` is modelled by `Real.rpow`. -/
noncomputable def calculate_returns (data : List PricePoint) (start_date end_date : ℤ) :
    Option (ℝ × ℝ) :=
  match select_start data start_date, select_end data end_date with
  | some s, some e =>
      let total_return : ℝ := (e.close - s.close) / s.close
      let years : ℝ := yearsBetween s e
      let cagr : ℝ := if 0 < years then (1 + total_return) ^ ((1 : ℝ) / years) - 1 else 0
      some (total_return, cagr)
  | _, _ => none

/-- Concrete series with non-positive closing prices used to refute the
"non-positive prices yield 0" part of claim C1. -/
def dataC1 : List PricePoint := [⟨0, -2⟩, ⟨365, -1⟩]

/-- Concrete series with positive prices spanning one year, used as witness
input for claim C1. -/
def dataW1 : List PricePoint := [⟨0, 2⟩, ⟨365, 3⟩]

/-- Concrete series with positive prices spanning 100 days, used as witness
input for claim C2. -/
def dataW2 : List PricePoint := [⟨0, 2⟩, ⟨100, 3⟩]

/-- C1 (amended): for every price series, once the start/end rows are
selected, `calculate_returns` returns `total_return = (end-start)/start`, and
a CAGR equal to `(end/start)^(1/years) - 1` whenever the spanned `years` is
positive and the start price is nonzero; for `years <= 0` the CAGR is `0`.
No guard exists for non-positive prices. -/
theorem calculate_returns_cagr_spec (data : List PricePoint) (start_date end_date : ℤ)
    (s e : PricePoint) (hs : select_start data start_date = some s)
    (he : select_end data end_date = some e) :
    ∃ tr cagr, calculate_returns data start_date end_date = some (tr, cagr) ∧
      tr = (e.close - s.close) / s.close ∧
      (yearsBetween s e ≤ 0 → cagr = 0) ∧
      (0 < yearsBetween s e → s.close ≠ 0 →
        cagr = (e.close / s.close) ^ ((1 : ℝ) / yearsBetween s e) - 1) := by
  unfold calculate_returns
  rw [hs, he]
  refine ⟨_, _, rfl, rfl, ?_, ?_⟩
  · intro hy
    simp only [if_neg (not_lt.mpr hy)]
  · intro hy hsne
    rw [if_pos hy]
    have hb : (1 : ℝ) + (e.close - s.close) / s.close = e.close / s.close := by
      field_simp
    rw [hb]

/-- Witness for C1: the amended statement applied to the concrete series
`dataW1` over the range `[0, 365]`. -/
theorem calculate_returns_cagr_spec_witness :
    select_start dataW1 0 = some ⟨0, 2⟩ ∧ select_end dataW1 365 = some ⟨365, 3⟩ ∧
    (∃ tr cagr, calculate_returns dataW1 0 365 = some (tr, cagr) ∧
      tr = ((⟨365, 3⟩ : PricePoint).close - (⟨0, 2⟩ : PricePoint).close) /
        (⟨0, 2⟩ : PricePoint).close ∧
      (yearsBetween ⟨0, 2⟩ ⟨365, 3⟩ ≤ 0 → cagr = 0) ∧
      (0 < yearsBetween ⟨0, 2⟩ ⟨365, 3⟩ → (⟨0, 2⟩ : PricePoint).close ≠ 0 →
        cagr = ((⟨365, 3⟩ : PricePoint).close / (⟨0, 2⟩ : PricePoint).close) ^
          ((1 : ℝ) / yearsBetween ⟨0, 2⟩ ⟨365, 3⟩) - 1)) :=
  ⟨rfl, rfl, calculate_returns_cagr_spec dataW1 0 365 ⟨0, 2⟩ ⟨365, 3⟩ rfl rfl⟩

/-- Counterexample to C1 as stated: on the series `dataC1`, every closing
price is non-positive and the spanned years are positive, yet the CAGR
returned by `calculate_returns` is not `0` (the code has no guard for
non-positive prices; here the price ratio is `1/2`, so the CAGR is strictly
negative). -/
theorem calculate_returns_nonpositive_price_cex :
    (∀ p ∈ dataC1, p.close ≤ 0) ∧
    (0 : ℝ) < yearsBetween ⟨0, -2⟩ ⟨365, -1⟩ ∧
    select_start dataC1 0 = some ⟨0, -2⟩ ∧
    select_end dataC1 365 = some ⟨365, -1⟩ ∧
    (calculate_returns dataC1 0 365).map Prod.snd ≠ some 0 := by
  have hyears : (0 : ℝ) < yearsBetween ⟨0, -2⟩ ⟨365, -1⟩ := by
    unfold yearsBetween
    norm_num
  refine ⟨?_, hyears, rfl, rfl, ?_⟩
  · intro p hp
    simp only [dataC1, List.mem_cons, List.mem_singleton, List.not_mem_nil, or_false] at hp
    rcases hp with h | h <;> rw [h] <;> norm_num
  · have hsel1 : select_start dataC1 0 = some ⟨0, -2⟩ := rfl
    have hsel2 : select_end dataC1 365 = some ⟨365, -1⟩ := rfl
    unfold calculate_returns
    rw [hsel1, hsel2]
    show some (if 0 < yearsBetween ⟨0, -2⟩ ⟨365, -1⟩ then
        ((1 : ℝ) + ((-1 : ℝ) - (-2 : ℝ)) / (-2 : ℝ)) ^
          ((1 : ℝ) / yearsBetween ⟨0, -2⟩ ⟨365, -1⟩) - 1
      else 0) ≠ some 0
    rw [if_pos hyears]
    have hb : (1 : ℝ) + ((-1 : ℝ) - (-2 : ℝ)) / (-2 : ℝ) = 1 / 2 := by
      norm_num
    rw [hb]
    have hexp : (0 : ℝ) < (1 : ℝ) / yearsBetween ⟨0, -2⟩ ⟨365, -1⟩ := by positivity
    have hlt : ((1 : ℝ) / 2) ^ ((1 : ℝ) / yearsBetween ⟨0, -2⟩ ⟨365, -1⟩) < 1 :=
      Real.rpow_lt_one (by norm_num) (by norm_num) hexp
    intro hzero
    have h2 : ((1 : ℝ) / 2) ^ ((1 : ℝ) / yearsBetween ⟨0, -2⟩ ⟨365, -1⟩) - 1 = 0 :=
      Option.some.inj hzero
    linarith

/-- Rounding of an exact rational to the nearest integer with ties going to
the even integer, the rounding Python applies when formatting an exactly
representable value with `%.2f`.  Computed on the reduced `num`/`den`
representation so that concrete instances evaluate by kernel reduction:
with `f = floor q`, the fractional part `q - f` compares to `1/2` exactly as
`2 * (num - f * den)` compares to `den`. -/
def roundHalfEven (q : ℚ) : ℤ :=
  let f : ℤ := Int.fdiv q.num (q.den : ℤ)
  let rem2 : ℤ := 2 * (q.num - f * (q.den : ℤ))
  if rem2 < (q.den : ℤ) then f
  else if (q.den : ℤ) < rem2 then f + 1
  else if f % 2 = 0 then f else f + 1

/-- Embedding of the Python format specifier `f"{x:.2f}"` applied to an exact
rational value: optional sign, integral part, a dot, and exactly two decimal
digits of the rounded magnitude. -/
def format2 (q : ℚ) : String :=
  let n : ℕ := (roundHalfEven (|q| * 100)).toNat
  (if q < 0 then "-" else "") ++ toString (n / 100) ++ "." ++
    (if n % 100 < 10 then "0" else "") ++ toString (n % 100)

/-- Embedding of the market-cap formatting in `main` (main.py lines 209-217):
thresholds at `1e12`, `1e9`, `1e6` with suffixes `T`, `B`, `M`, else the raw
value to two decimals. -/
def formatMarketCap (market_cap : ℚ) : String :=
  if 1000000000000 ≤ market_cap then format2 (market_cap / 1000000000000) ++ "T"
  else if 1000000000 ≤ market_cap then format2 (market_cap / 1000000000) ++ "B"
  else if 1000000 ≤ market_cap then format2 (market_cap / 1000000) ++ "M"
  else format2 market_cap

/-- Evaluation helper for `format2`: once the scaled magnitude `|q| * 100` is
identified as `c` and the sign of `q` is settled, the format reduces to plain
digit manipulation on `roundHalfEven c`. -/
theorem format2_eval (q c : ℚ) (hq : ¬ q < 0) (hc : |q| * 100 = c) :
    format2 q = toString ((roundHalfEven c).toNat / 100) ++ "." ++
      (if (roundHalfEven c).toNat % 100 < 10 then "0" else "") ++
      toString ((roundHalfEven c).toNat % 100) := by
  unfold format2
  rw [hc, if_neg hq]
  rfl

/-- C3 (confirmed): the market-cap formatter maps a non-negative value `v` to
`v/1e12` at two decimals with suffix `T` when `v >= 1e12`, `v/1e9` with `B`
when `1e9 <= v < 1e12`, `v/1e6` with `M` when `1e6 <= v < 1e9`, and `v`
itself at two decimals otherwise; in particular `1.5e12 -> "1.50T"`,
`2.3e9 -> "2.30B"`, `4.1e6 -> "4.10M"`, `500 -> "500.00"`. -/
theorem formatMarketCap_spec (v : ℚ) (hv : 0 ≤ v) :
    ((1000000000000 : ℚ) ≤ v → formatMarketCap v = format2 (v / 1000000000000) ++ "T") ∧
    ((1000000000 : ℚ) ≤ v → v < 1000000000000 →
      formatMarketCap v = format2 (v / 1000000000) ++ "B") ∧
    ((1000000 : ℚ) ≤ v → v < 1000000000 →
      formatMarketCap v = format2 (v / 1000000) ++ "M") ∧
    (v < 1000000 → formatMarketCap v = format2 v) ∧
    formatMarketCap 1500000000000 = "1.50T" ∧
    formatMarketCap 2300000000 = "2.30B" ∧
    formatMarketCap 4100000 = "4.10M" ∧
    formatMarketCap 500 = "500.00" := by
  refine ⟨?_, ?_, ?_, ?_, ?_, ?_, ?_, ?_⟩
  · intro h12
    unfold formatMarketCap
    rw [if_pos h12]
  · intro h9 h12
    unfold formatMarketCap
    rw [if_neg (not_le.mpr h12), if_pos h9]
  · intro h6 h9
    unfold formatMarketCap
    rw [if_neg (not_le.mpr (h9.trans (by norm_num))), if_neg (not_le.mpr h9), if_pos h6]
  · intro h6
    unfold formatMarketCap
    rw [if_neg (not_le.mpr (h6.trans (by norm_num))),
      if_neg (not_le.mpr (h6.trans (by norm_num))), if_neg (not_le.mpr h6)]
  · unfold formatMarketCap
    rw [if_pos (by norm_num : (1000000000000 : ℚ) ≤ 1500000000000)]
    rw [(by norm_num : (1500000000000 : ℚ) / 1000000000000 = 3 / 2)]
    rw [format2_eval (3 / 2) 150 (by norm_num)
      (by rw [abs_of_nonneg (by norm_num : (0 : ℚ) ≤ 3 / 2)]; norm_num)]
    decide
  · unfold formatMarketCap
    rw [if_neg (by norm_num : ¬ (1000000000000 : ℚ) ≤ 2300000000)]
    rw [if_pos (by norm_num : (1000000000 : ℚ) ≤ 2300000000)]
    rw [(by norm_num : (2300000000 : ℚ) / 1000000000 = 23 / 10)]
    rw [format2_eval (23 / 10) 230 (by norm_num)
      (by rw [abs_of_nonneg (by norm_num : (0 : ℚ) ≤ 23 / 10)]; norm_num)]
    decide
  · unfold formatMarketCap
    rw [if_neg (by norm_num : ¬ (1000000000000 : ℚ) ≤ 4100000)]
    rw [if_neg (by norm_num : ¬ (1000000000 : ℚ) ≤ 4100000)]
    rw [if_pos (by norm_num : (1000000 : ℚ) ≤ 4100000)]
    rw [(by norm_num : (4100000 : ℚ) / 1000000 = 41 / 10)]
    rw [format2_eval (41 / 10) 410 (by norm_num)
      (by rw [abs_of_nonneg (by norm_num : (0 : ℚ) ≤ 41 / 10)]; norm_num)]
    decide
  · unfold formatMarketCap
    rw [if_neg (by norm_num : ¬ (1000000000000 : ℚ) ≤ 500)]
    rw [if_neg (by norm_num : ¬ (1000000000 : ℚ) ≤ 500)]
    rw [if_neg (by norm_num : ¬ (1000000 : ℚ) ≤ 500)]
    rw [format2_eval 500 50000 (by norm_num)
      (by rw [abs_of_nonneg (by norm_num : (0 : ℚ) ≤ 500)]; norm_num)]
    decide

/-- Witness for C3: the theorem applied at the concrete value `500`. -/
theorem formatMarketCap_spec_witness :
    (0 : ℚ) ≤ 500 ∧
    (((1000000000000 : ℚ) ≤ 500 → formatMarketCap 500 = format2 (500 / 1000000000000) ++ "T") ∧
    ((1000000000 : ℚ) ≤ 500 → (500 : ℚ) < 1000000000000 →
      formatMarketCap 500 = format2 (500 / 1000000000) ++ "B") ∧
    ((1000000 : ℚ) ≤ 500 → (500 : ℚ) < 1000000000 →
      formatMarketCap 500 = format2 (500 / 1000000) ++ "M") ∧
    ((500 : ℚ) < 1000000 → formatMarketCap 500 = format2 500) ∧
    formatMarketCap 1500000000000 = "1.50T" ∧
    formatMarketCap 2300000000 = "2.30B" ∧
    formatMarketCap 4100000 = "4.10M" ∧
    formatMarketCap 500 = "500.00") :=
  ⟨by norm_num, formatMarketCap_spec 500 (by norm_num)⟩

/-- C2 (confirmed): for a price series whose selected rows have positive
closing prices and span `d` days with `0 < d < 365.25`, the CAGR computed by
`calculate_returns` equals the annualized return `(end/start)^(365.25/d) - 1`
(indeed `1/years = 365.25/d` when `years = d/365.25`). -/
theorem calculate_returns_annualized_under_one_year (data : List PricePoint)
    (start_date end_date : ℤ) (s e : PricePoint)
    (hs : select_start data start_date = some s) (he : select_end data end_date = some e)
    (hsp : 0 < s.close) (hep : 0 < e.close)
    (hd0 : 0 < e.date - s.date) (hd1 : ((e.date - s.date : ℤ) : ℝ) < 365.25) :
    (calculate_returns data start_date end_date).map Prod.snd =
      some ((e.close / s.close) ^ ((365.25 : ℝ) / ((e.date - s.date : ℤ) : ℝ)) - 1) := by
  have hdr : (0 : ℝ) < ((e.date - s.date : ℤ) : ℝ) := by exact_mod_cast hd0
  have hy : 0 < yearsBetween s e := by
    unfold yearsBetween
    positivity
  unfold calculate_returns
  rw [hs, he]
  show some (if 0 < yearsBetween s e then
      (1 + (e.close - s.close) / s.close) ^ ((1 : ℝ) / yearsBetween s e) - 1
    else 0) =
    some ((e.close / s.close) ^ ((365.25 : ℝ) / ((e.date - s.date : ℤ) : ℝ)) - 1)
  rw [if_pos hy]
  have hb : (1 : ℝ) + (e.close - s.close) / s.close = e.close / s.close := by
    field_simp
  rw [hb]
  have hexp : (1 : ℝ) / yearsBetween s e = (365.25 : ℝ) / ((e.date - s.date : ℤ) : ℝ) := by
    unfold yearsBetween
    rw [one_div_div]
  rw [hexp]

/-- Witness for C2: the theorem applied to the concrete series `dataW2`
(prices 2 and 3, spanning 100 days). -/
theorem calculate_returns_annualized_under_one_year_witness :
    (0 : ℝ) < (⟨0, 2⟩ : PricePoint).close ∧
    (0 : ℤ) < (⟨100, 3⟩ : PricePoint).date - (⟨0, 2⟩ : PricePoint).date ∧
    (calculate_returns dataW2 0 100).map Prod.snd =
      some (((⟨100, 3⟩ : PricePoint).close / (⟨0, 2⟩ : PricePoint).close) ^
        ((365.25 : ℝ) / (((⟨100, 3⟩ : PricePoint).date - (⟨0, 2⟩ : PricePoint).date : ℤ) : ℝ)) - 1) :=
  ⟨by norm_num, by decide,
    calculate_returns_annualized_under_one_year dataW2 0 100 ⟨0, 2⟩ ⟨100, 3⟩ rfl rfl
      (by norm_num) (by norm_num) (by decide) (by norm_num)⟩

/-- A Gregorian calendar date, as produced by Python's `datetime.date`. -/
structure CalDate where
  year : ℤ
  month : ℕ
  day : ℕ
deriving DecidableEq

/-- Day number of a Gregorian date (days since 1970-01-01), the standard
civil-calendar conversion; used to model `datetime.timedelta` arithmetic. -/
def toOrdinal (d : CalDate) : ℤ :=
  let y : ℤ := if d.month ≤ 2 then d.year - 1 else d.year
  let era : ℤ := Int.fdiv y 400
  let yoe : ℤ := y - era * 400
  let mp : ℤ := Int.emod ((d.month : ℤ) + 9) 12
  let doy : ℤ := Int.fdiv (153 * mp + 2) 5 + (d.day : ℤ) - 1
  let doe : ℤ := yoe * 365 + Int.fdiv yoe 4 - Int.fdiv yoe 100 + doy
  era * 146097 + doe - 719468

/-- Gregorian date of a day number, inverse of `toOrdinal`. -/
def fromOrdinal (z0 : ℤ) : CalDate :=
  let z : ℤ := z0 + 719468
  let era : ℤ := Int.fdiv z 146097
  let doe : ℤ := z - era * 146097
  let yoe : ℤ := Int.fdiv (doe - Int.fdiv doe 1460 + Int.fdiv doe 36524 - Int.fdiv doe 146096) 365
  let y : ℤ := yoe + era * 400
  let doy : ℤ := doe - (365 * yoe + Int.fdiv yoe 4 - Int.fdiv yoe 100)
  let mp : ℤ := Int.fdiv (5 * doy + 2) 153
  let dd : ℤ := doy - Int.fdiv (153 * mp + 2) 5 + 1
  let mm : ℤ := if mp < 10 then mp + 3 else mp - 9
  ⟨if mm ≤ 2 then y + 1 else y, mm.toNat, dd.toNat⟩

/-- Embedding of `some_date - timedelta(days=n)` on `datetime.date` values. -/
def subDays (d : CalDate) (n : ℕ) : CalDate :=
  fromOrdinal (toOrdinal d - (n : ℤ))

/-- The fixed enumeration of named date windows offered in the sidebar
(main.py line 61). -/
inductive DateRange where
  | D1 | D5 | MTD | M6 | YTD | Y1 | Y5 | Y10 | Y15 | Y20 | Y30 | Maximum | Custom
deriving DecidableEq

/-- Embedding of `get_date_range` (main.py lines 64-93).  `today` models
`datetime.now().date()`; `customStart`/`customEnd` model the two
`st.sidebar.date_input` widgets that are only consulted in the `Custom`
branch.  Returns `(start_date, end_date)` with `start_date = none` for
`Maximum`. -/
def get_date_range (r : DateRange) (today customStart customEnd : CalDate) :
    Option CalDate × CalDate :=
  match r with
  | .D1 => (some (subDays today 1), today)
  | .D5 => (some (subDays today 5), today)
  | .MTD => (some { today with day := 1 }, today)
  | .M6 => (some (subDays today 180), today)
  | .YTD => (some { today with month := 1, day := 1 }, today)
  | .Y1 => (some (subDays today 365), today)
  | .Y5 => (some (subDays today (365 * 5)), today)
  | .Y10 => (some (subDays today (365 * 10)), today)
  | .Y15 => (some (subDays today (365 * 15)), today)
  | .Y20 => (some (subDays today (365 * 20)), today)
  | .Y30 => (some (subDays today (365 * 30)), today)
  | .Maximum => (none, today)
  | .Custom => (some customStart, customEnd)

/-- C4 (confirmed): for every named range other than `Custom`,
`get_date_range` depends only on the current date (same output for any
user-supplied custom dates); each named window maps to its fixed start-date
offset from `today` (`1D` is yesterday, `MTD` the first of the current month,
`YTD` January 1 of the current year, and the day-counted windows subtract
their fixed day counts); `Maximum` yields no lower bound and `Custom` returns
the explicit user-supplied dates. -/
theorem get_date_range_spec (r : DateRange) (today c1 c2 c1' c2' : CalDate)
    (h : r ≠ DateRange.Custom) :
    get_date_range r today c1 c2 = get_date_range r today c1' c2' ∧
    (get_date_range .D1 today c1 c2).1 = some (subDays today 1) ∧
    (get_date_range .D5 today c1 c2).1 = some (subDays today 5) ∧
    (get_date_range .MTD today c1 c2).1 = some ⟨today.year, today.month, 1⟩ ∧
    (get_date_range .M6 today c1 c2).1 = some (subDays today 180) ∧
    (get_date_range .YTD today c1 c2).1 = some ⟨today.year, 1, 1⟩ ∧
    (get_date_range .Y1 today c1 c2).1 = some (subDays today 365) ∧
    (get_date_range .Y5 today c1 c2).1 = some (subDays today (365 * 5)) ∧
    (get_date_range .Y10 today c1 c2).1 = some (subDays today (365 * 10)) ∧
    (get_date_range .Y15 today c1 c2).1 = some (subDays today (365 * 15)) ∧
    (get_date_range .Y20 today c1 c2).1 = some (subDays today (365 * 20)) ∧
    (get_date_range .Y30 today c1 c2).1 = some (subDays today (365 * 30)) ∧
    get_date_range .Maximum today c1 c2 = (none, today) ∧
    get_date_range .Custom today c1 c2 = (some c1, c2) ∧
    (∀ r' : DateRange, r' ≠ DateRange.Custom → (get_date_range r' today c1 c2).2 = today) := by
  refine ⟨?_, rfl, rfl, rfl, rfl, rfl, rfl, rfl, rfl, rfl, rfl, rfl, rfl, rfl, ?_⟩
  · cases r <;> first | rfl | exact absurd rfl h
  · intro r' h'
    cases r' <;> first | rfl | exact absurd rfl h'

/-- Witness for C4: the theorem applied to the `1D` range on 2024-06-15 with
two different pairs of custom dates. -/
theorem get_date_range_spec_witness :
    DateRange.D1 ≠ DateRange.Custom ∧
    (get_date_range .D1 ⟨2024, 6, 15⟩ ⟨2023, 1, 1⟩ ⟨2024, 1, 1⟩ =
        get_date_range .D1 ⟨2024, 6, 15⟩ ⟨2020, 2, 2⟩ ⟨2021, 3, 3⟩ ∧
      (get_date_range .D1 ⟨2024, 6, 15⟩ ⟨2023, 1, 1⟩ ⟨2024, 1, 1⟩).1 =
        some (subDays ⟨2024, 6, 15⟩ 1) ∧
      (get_date_range .D5 ⟨2024, 6, 15⟩ ⟨2023, 1, 1⟩ ⟨2024, 1, 1⟩).1 =
        some (subDays ⟨2024, 6, 15⟩ 5) ∧
      (get_date_range .MTD ⟨2024, 6, 15⟩ ⟨2023, 1, 1⟩ ⟨2024, 1, 1⟩).1 =
        some ⟨(⟨2024, 6, 15⟩ : CalDate).year, (⟨2024, 6, 15⟩ : CalDate).month, 1⟩ ∧
      (get_date_range .M6 ⟨2024, 6, 15⟩ ⟨2023, 1, 1⟩ ⟨2024, 1, 1⟩).1 =
        some (subDays ⟨2024, 6, 15⟩ 180) ∧
      (get_date_range .YTD ⟨2024, 6, 15⟩ ⟨2023, 1, 1⟩ ⟨2024, 1, 1⟩).1 =
        some ⟨(⟨2024, 6, 15⟩ : CalDate).year, 1, 1⟩ ∧
      (get_date_range .Y1 ⟨2024, 6, 15⟩ ⟨2023, 1, 1⟩ ⟨2024, 1, 1⟩).1 =
        some (subDays ⟨2024, 6, 15⟩ 365) ∧
      (get_date_range .Y5 ⟨2024, 6, 15⟩ ⟨2023, 1, 1⟩ ⟨2024, 1, 1⟩).1 =
        some (subDays ⟨2024, 6, 15⟩ (365 * 5)) ∧
      (get_date_range .Y10 ⟨2024, 6, 15⟩ ⟨2023, 1, 1⟩ ⟨2024, 1, 1⟩).1 =
        some (subDays ⟨2024, 6, 15⟩ (365 * 10)) ∧
      (get_date_range .Y15 ⟨2024, 6, 15⟩ ⟨2023, 1, 1⟩ ⟨2024, 1, 1⟩).1 =
        some (subDays ⟨2024, 6, 15⟩ (365 * 15)) ∧
      (get_date_range .Y20 ⟨2024, 6, 15⟩ ⟨2023, 1, 1⟩ ⟨2024, 1, 1⟩).1 =
        some (subDays ⟨2024, 6, 15⟩ (365 * 20)) ∧
      (get_date_range .Y30 ⟨2024, 6, 15⟩ ⟨2023, 1, 1⟩ ⟨2024, 1, 1⟩).1 =
        some (subDays ⟨2024, 6, 15⟩ (365 * 30)) ∧
      get_date_range .Maximum ⟨2024, 6, 15⟩ ⟨2023, 1, 1⟩ ⟨2024, 1, 1⟩ =
        (none, ⟨2024, 6, 15⟩) ∧
      get_date_range .Custom ⟨2024, 6, 15⟩ ⟨2023, 1, 1⟩ ⟨2024, 1, 1⟩ =
        (some ⟨2023, 1, 1⟩, ⟨2024, 1, 1⟩) ∧
      (∀ r' : DateRange, r' ≠ DateRange.Custom →
        (get_date_range r' ⟨2024, 6, 15⟩ ⟨2023, 1, 1⟩ ⟨2024, 1, 1⟩).2 = ⟨2024, 6, 15⟩)) :=
  ⟨by decide,
    get_date_range_spec .D1 ⟨2024, 6, 15⟩ ⟨2023, 1, 1⟩ ⟨2024, 1, 1⟩ ⟨2020, 2, 2⟩ ⟨2021, 3, 3⟩
      (by decide)⟩

/-- Outcome of one `yf.download(symbol, start, end)` call (main.py line 106):
either a (possibly empty) price table, or a raised exception message. -/
inductive FetchOutcome where
  | success (series : List PricePoint)
  | failure (msg : String)

/-- User-visible messages and actions emitted by the fetch loop of `main`
(main.py lines 100-116): the fetch attempt itself, the `st.warning` for an
empty table (line 114), and the `st.error` for a caught exception
(line 116). -/
inductive FetchEvent where
  | fetchAttempt (sym : String)
  | warnNoData (sym : String)
  | errFetch (sym : String) (msg : String)
deriving DecidableEq

/-- Embedding of the per-symbol fetch loop (main.py lines 100-116): for each
symbol in order, attempt the download; a nonempty table is inserted into
`data`, an empty table produces a warning, and a caught exception produces an
error message; in every case the loop moves on to the next symbol.  Returns
the collected `data` association list (in insertion order) and the emitted
events. -/
def fetchSymbols (fetch : String → FetchOutcome) :
    List String → List (String × List PricePoint) × List FetchEvent
  | [] => ([], [])
  | sym :: rest =>
      let hd : List (String × List PricePoint) × List FetchEvent :=
        match fetch sym with
        | .success series =>
            if series.isEmpty then ([], [.fetchAttempt sym, .warnNoData sym])
            else ([(sym, series)], [.fetchAttempt sym])
        | .failure msg => ([], [.fetchAttempt sym, .errFetch sym msg])
      let tl := fetchSymbols fetch rest
      (hd.1 ++ tl.1, hd.2 ++ tl.2)

/-- Result of the code following the fetch loop (main.py lines 119-123):
`selected_symbols` is filtered down to symbols with data, and when no symbol
has data the run stops (`st.error` followed by `return`). -/
inductive StageOutcome where
  | aborted
  | proceeded (selected : List String)
deriving DecidableEq

/-- Embedding of main.py lines 119-123. -/
def afterFetchStage (symbols : List String) (data : List (String × List PricePoint)) :
    StageOutcome :=
  let selected := symbols.filter (fun s => ((data.find? (fun p => decide (p.1 = s))).isSome))
  if data.isEmpty then .aborted else .proceeded selected

/-- Embedding of main.py lines 95-116 as one step: `main` resolves the date
range with `get_date_range` and immediately enters the fetch loop, passing
the resolved dates to every download call.  No validation of the date range
happens in between. -/
def mainFetchPhase (r : DateRange) (today customStart customEnd : CalDate)
    (symbols : List String)
    (fetch : String → Option CalDate → CalDate → FetchOutcome) :
    List (String × List PricePoint) × List FetchEvent :=
  let sd_ed := get_date_range r today customStart customEnd
  fetchSymbols (fun sym => fetch sym sd_ed.1 sd_ed.2) symbols

/-- Every symbol of the list gets a fetch attempt, whatever the fetch
returns. -/
theorem fetchSymbols_attempt_mem (fetch : String → FetchOutcome)
    (symbols : List String) (sym : String) (h : sym ∈ symbols) :
    FetchEvent.fetchAttempt sym ∈ (fetchSymbols fetch symbols).2 := by
  induction symbols with
  | nil => cases h
  | cons a rest ih =>
      rcases List.mem_cons.mp h with h1 | h1
      · subst h1
        show FetchEvent.fetchAttempt sym ∈ _ ++ _
        refine List.mem_append.mpr (Or.inl ?_)
        cases hf : fetch sym with
        | success series =>
            by_cases hemp : series.isEmpty
            · simp [hf, hemp]
            · simp [hf, hemp]
        | failure msg => simp [hf]
      · show FetchEvent.fetchAttempt sym ∈ _ ++ _
        exact List.mem_append.mpr (Or.inr (ih h1))

/-- A fetch oracle that always raises, used in the counterexamples. -/
def cexFail : String → FetchOutcome := fun _ => .failure "boom"

/-- A fetch oracle (ignoring its date arguments) that always raises, used in
the C5 counterexample. -/
def cexFailDated : String → Option CalDate → CalDate → FetchOutcome :=
  fun _ _ _ => .failure "network unreachable"

/-- Counterexample to C5 as stated: with the `Custom` range set to
start 2024-05-01 and end 2024-01-01 (start strictly after end), the run is
not rejected: the market-data fetch for "AAPL" is still issued. -/
theorem start_after_end_fetch_cex :
    toOrdinal ⟨2024, 1, 1⟩ < toOrdinal ⟨2024, 5, 1⟩ ∧
    (get_date_range .Custom ⟨2024, 6, 1⟩ ⟨2024, 5, 1⟩ ⟨2024, 1, 1⟩ =
      (some ⟨2024, 5, 1⟩, ⟨2024, 1, 1⟩)) ∧
    FetchEvent.fetchAttempt "AAPL" ∈
      (mainFetchPhase .Custom ⟨2024, 6, 1⟩ ⟨2024, 5, 1⟩ ⟨2024, 1, 1⟩ ["AAPL"] cexFailDated).2 := by
  refine ⟨by decide, rfl, ?_⟩
  show FetchEvent.fetchAttempt "AAPL" ∈
    (fetchSymbols (fun sym => cexFailDated sym (some ⟨2024, 5, 1⟩) ⟨2024, 1, 1⟩) ["AAPL"]).2
  decide

/-- C5 (amended): `main` performs no validation of the resolved date range:
for every range selection (including a `Custom` range whose start is after
its end) and every selected symbol, a market-data fetch is issued for that
symbol with the resolved dates passed through unchanged. -/
theorem mainFetchPhase_always_fetches (r : DateRange) (today c1 c2 : CalDate)
    (symbols : List String) (fetch : String → Option CalDate → CalDate → FetchOutcome)
    (sym : String) (h : sym ∈ symbols) :
    FetchEvent.fetchAttempt sym ∈ (mainFetchPhase r today c1 c2 symbols fetch).2 :=
  fetchSymbols_attempt_mem _ symbols sym h

/-- Witness for C5 (amended): a `Custom` range with start after end still
issues the fetch for "AAPL". -/
theorem mainFetchPhase_always_fetches_witness :
    "AAPL" ∈ ["AAPL"] ∧
    FetchEvent.fetchAttempt "AAPL" ∈
      (mainFetchPhase .Custom ⟨2024, 6, 1⟩ ⟨2024, 5, 1⟩ ⟨2024, 1, 1⟩ ["AAPL"]
        (fun _ _ _ => .success [])).2 :=
  ⟨by decide,
    mainFetchPhase_always_fetches .Custom ⟨2024, 6, 1⟩ ⟨2024, 5, 1⟩ ⟨2024, 1, 1⟩ ["AAPL"]
      (fun _ _ _ => .success []) "AAPL" (by decide)⟩

/-- A caught exception for a symbol is surfaced as an `errFetch` message. -/
theorem fetchSymbols_err_mem (fetch : String → FetchOutcome) (symbols : List String)
    (s m : String) (hs : s ∈ symbols) (hf : fetch s = .failure m) :
    FetchEvent.errFetch s m ∈ (fetchSymbols fetch symbols).2 := by
  induction symbols with
  | nil => cases hs
  | cons a rest ih =>
      show FetchEvent.errFetch s m ∈ _ ++ _
      rcases List.mem_cons.mp hs with h1 | h1
      · subst h1
        exact List.mem_append.mpr (Or.inl (by simp [hf]))
      · exact List.mem_append.mpr (Or.inr (ih h1))

/-- An empty table for a symbol is surfaced as a `warnNoData` message. -/
theorem fetchSymbols_warn_mem (fetch : String → FetchOutcome) (symbols : List String)
    (t : String) (ht : t ∈ symbols) (hf : fetch t = .success []) :
    FetchEvent.warnNoData t ∈ (fetchSymbols fetch symbols).2 := by
  induction symbols with
  | nil => cases ht
  | cons a rest ih =>
      show FetchEvent.warnNoData t ∈ _ ++ _
      rcases List.mem_cons.mp ht with h1 | h1
      · subst h1
        exact List.mem_append.mpr (Or.inl (by simp [hf]))
      · exact List.mem_append.mpr (Or.inr (ih h1))

/-- Every entry of the collected `data` comes from a fetch that returned a
nonempty table for that symbol. -/
theorem fetchSymbols_data_sound (fetch : String → FetchOutcome) (symbols : List String) :
    ∀ p ∈ (fetchSymbols fetch symbols).1, fetch p.1 = .success p.2 ∧ p.2 ≠ [] := by
  induction symbols with
  | nil =>
      intro p hp
      cases hp
  | cons a rest ih =>
      intro p hp
      have hp' : p ∈ _ ++ _ := hp
      rcases List.mem_append.mp hp' with h1 | h1
      · cases hfa : fetch a with
        | success ser =>
            cases hemp : ser.isEmpty with
            | true => simp [hfa, hemp] at h1
            | false =>
                simp only [hfa, hemp, Bool.false_eq_true, if_false, List.mem_singleton] at h1
                subst h1
                refine ⟨hfa, ?_⟩
                intro hn
                have hn' : ser = [] := hn
                rw [hn'] at hemp
                cases hemp
        | failure m => simp [hfa] at h1
      · exact ih p h1

/-- A symbol whose fetch never yields a nonempty table has no entry in the
collected `data`. -/
theorem fetchSymbols_no_entry (fetch : String → FetchOutcome) (symbols : List String)
    (s : String) (h : ∀ ser, fetch s = FetchOutcome.success ser → ser = []) :
    (fetchSymbols fetch symbols).1.find? (fun p => decide (p.1 = s)) = none := by
  apply List.find?_eq_none.mpr
  intro p hp
  obtain ⟨h1, h2⟩ := fetchSymbols_data_sound fetch symbols p hp
  simp only [decide_eq_true_eq]
  intro hps
  rw [hps] at h1
  exact h2 (h p.2 h1)

/-- A symbol whose fetch yields a nonempty table is recorded in `data`. -/
theorem fetchSymbols_success_mem_data (fetch : String → FetchOutcome) (symbols : List String)
    (t : String) (ser : List PricePoint) (ht : t ∈ symbols)
    (hf : fetch t = .success ser) (hne : ser ≠ []) :
    (t, ser) ∈ (fetchSymbols fetch symbols).1 := by
  have hemp : ser.isEmpty = false := by
    cases hser : ser.isEmpty with
    | true =>
        cases ser with
        | nil => exact absurd rfl hne
        | cons x xs => cases hser
    | false => rfl
  induction symbols with
  | nil => cases ht
  | cons a rest ih =>
      show (t, ser) ∈ _ ++ _
      rcases List.mem_cons.mp ht with h1 | h1
      · subst h1
        exact List.mem_append.mpr (Or.inl (by simp [hf, hemp]))
      · exact List.mem_append.mpr (Or.inr (ih h1))

/-- The fetch oracle used in the C6 witness: the primary symbol raises, the
second symbol has data. -/
def fetchW : String → FetchOutcome :=
  fun s => if s = "AAPL" then FetchOutcome.failure "boom" else FetchOutcome.success [⟨0, 1⟩]

/-- C6 (amended): an exception raised by one symbol's fetch is caught and
surfaced as an error message; that symbol is omitted from the collected data;
the loop still attempts every selected symbol (and still warns about
empty-table symbols, also omitted); and the run proceeds with the failing
symbol excluded from the charted set provided at least one selected symbol
yields a nonempty table — when none does, the stage aborts instead. -/
theorem fetch_error_isolated (symbols : List String) (fetch : String → FetchOutcome)
    (s m : String) (hs : s ∈ symbols) (hf : fetch s = .failure m) :
    FetchEvent.errFetch s m ∈ (fetchSymbols fetch symbols).2 ∧
    (fetchSymbols fetch symbols).1.find? (fun p => decide (p.1 = s)) = none ∧
    (∀ t ∈ symbols, FetchEvent.fetchAttempt t ∈ (fetchSymbols fetch symbols).2) ∧
    (∀ t ∈ symbols, fetch t = FetchOutcome.success [] →
      FetchEvent.warnNoData t ∈ (fetchSymbols fetch symbols).2 ∧
      (fetchSymbols fetch symbols).1.find? (fun p => decide (p.1 = t)) = none) ∧
    ((∃ t ∈ symbols, ∃ ser, fetch t = FetchOutcome.success ser ∧ ser ≠ []) →
      ∃ sel, afterFetchStage symbols (fetchSymbols fetch symbols).1 = .proceeded sel ∧
        s ∉ sel) := by
  have hsnone : (fetchSymbols fetch symbols).1.find? (fun p => decide (p.1 = s)) = none := by
    apply fetchSymbols_no_entry
    intro ser hseq
    rw [hf] at hseq
    cases hseq
  refine ⟨fetchSymbols_err_mem fetch symbols s m hs hf, hsnone, ?_, ?_, ?_⟩
  · intro t ht
    exact fetchSymbols_attempt_mem fetch symbols t ht
  · intro t ht hft
    refine ⟨fetchSymbols_warn_mem fetch symbols t ht hft, ?_⟩
    apply fetchSymbols_no_entry
    intro ser hseq
    rw [hft] at hseq
    cases hseq
    rfl
  · intro hex
    obtain ⟨t, ht, ser, hft, hser⟩ := hex
    have hdata := fetchSymbols_success_mem_data fetch symbols t ser ht hft hser
    have hD : (fetchSymbols fetch symbols).1.isEmpty = false := by
      cases hD' : (fetchSymbols fetch symbols).1 with
      | nil => rw [hD'] at hdata; cases hdata
      | cons x xs => rfl
    refine ⟨symbols.filter
      (fun u => (((fetchSymbols fetch symbols).1.find? (fun p => decide (p.1 = u))).isSome)),
      ?_, ?_⟩
    · unfold afterFetchStage
      rw [hD]
      rfl
    · intro hmem
      have hpred := (List.mem_filter.mp hmem).2
      rw [hsnone] at hpred
      cases hpred

/-- Witness for C6: two symbols, the first raising an exception and the
second returning data; the error is reported, the loop continues, and the
run proceeds without the failing symbol. -/
theorem fetch_error_isolated_witness :
    "AAPL" ∈ ["AAPL", "MSFT"] ∧ fetchW "AAPL" = .failure "boom" ∧
    (FetchEvent.errFetch "AAPL" "boom" ∈ (fetchSymbols fetchW ["AAPL", "MSFT"]).2 ∧
    (fetchSymbols fetchW ["AAPL", "MSFT"]).1.find? (fun p => decide (p.1 = "AAPL")) = none ∧
    (∀ t ∈ ["AAPL", "MSFT"],
      FetchEvent.fetchAttempt t ∈ (fetchSymbols fetchW ["AAPL", "MSFT"]).2) ∧
    (∀ t ∈ ["AAPL", "MSFT"], fetchW t = FetchOutcome.success [] →
      FetchEvent.warnNoData t ∈ (fetchSymbols fetchW ["AAPL", "MSFT"]).2 ∧
      (fetchSymbols fetchW ["AAPL", "MSFT"]).1.find? (fun p => decide (p.1 = t)) = none) ∧
    ((∃ t ∈ ["AAPL", "MSFT"], ∃ ser, fetchW t = FetchOutcome.success ser ∧ ser ≠ []) →
      ∃ sel, afterFetchStage ["AAPL", "MSFT"] (fetchSymbols fetchW ["AAPL", "MSFT"]).1 =
        .proceeded sel ∧ "AAPL" ∉ sel)) :=
  ⟨by decide, rfl, fetch_error_isolated ["AAPL", "MSFT"] fetchW "AAPL" "boom" (by decide) rfl⟩

/-- Counterexample to C6 as stated: when the only selected symbol's fetch
raises, the exception is caught and reported, yet the run does not continue —
the stage aborts (main.py lines 121-123), contradicting "continues ... rather
than aborting the run". -/
theorem fetch_error_aborts_cex :
    (fetchSymbols cexFail ["AAPL"]).2 =
      [FetchEvent.fetchAttempt "AAPL", FetchEvent.errFetch "AAPL" "boom"] ∧
    afterFetchStage ["AAPL"] (fetchSymbols cexFail ["AAPL"]).1 = .aborted :=
  ⟨rfl, rfl⟩

/-- The single environment read of the program (main.py line 14):
`NYT_API_KEY = os.environ.get('NYT_API_KEY')`.  `env` models
`os.environ.get`: `none` when the variable is absent, with no exception. -/
def NYT_API_KEY (env : String → Option String) : Option String :=
  env "NYT_API_KEY"

/-- The complete list of environment variables read anywhere in `main.py` and
`database.py`: the only `os.environ` access is main.py line 14. -/
def apiKeyNames : List String := ["NYT_API_KEY"]

/-- One article of the news-API JSON payload.  Each field is `none` when the
corresponding key is absent from the article object (main.py lines 265-273
substitute fallback strings). -/
structure Article where
  headline : Option String
  pub_date : Option String
  abstract : Option String
  web_url : Option String
  score : Option String
deriving DecidableEq

/-- The HTTP response of the news request (main.py lines 250-261): a status
code, the raw body text (echoed in the error message for a non-200 status),
and — for a 200 response — the parsed `response.docs` list when both keys are
present, else `none`. -/
structure HttpResponse where
  status : ℕ
  text : String
  docs? : Option (List Article)
deriving DecidableEq

/-- Outcome of the guarded news block (main.py lines 239-289): either a
response object, or an exception caught by the outer `except`. -/
inductive NewsFetch where
  | exn (msg : String)
  | response (r : HttpResponse)
deriving DecidableEq

/-- User-visible messages and actions of the news section: the `st.error`
for a non-200 status (line 252), one displayed article (lines 265-272), the
"no news found" info (line 285), the malformed-payload error (line 287), the
caught-exception error (line 289), and the CSV download offer (line 278). -/
inductive NewsEvent where
  | errHttp (status : ℕ) (text : String)
  | showArticle (headline : String)
  | infoNoNews
  | errFormat
  | errNewsExn (msg : String)
  | exportOffered
deriving DecidableEq

/-- The row appended to `news_data` for one displayed article (main.py
line 273), with the same fallback strings as the display. -/
def mkNewsRow (a : Article) : List String :=
  [a.headline.getD "No headline available",
   a.pub_date.getD "Date not available",
   a.abstract.getD "No abstract available",
   a.web_url.getD "#",
   a.score.getD "N/A"]

/-- The header row fixed by `export_news_to_csv` (main.py line 34). -/
def newsHeader : List String :=
  ["Headline", "Published Date", "Abstract", "URL", "Relevance"]

/-- Embedding of `export_news_to_csv` (main.py lines 33-36): the CSV written
with `index=False` is the fixed header record followed by one record per
entry of `news_data`. -/
def export_news_to_csv (news_data : List (List String)) : List (List String) :=
  newsHeader :: news_data

/-- Embedding of the news section of `main` (main.py lines 239-289): on a
caught exception or a non-200 status an error is shown and nothing else
happens; a 200 payload without `response`/`docs` is reported as malformed;
an empty article list produces an info message; otherwise the first (up to) 5
articles are displayed, each appended to `news_data`, and the CSV download is
offered.  Returns `news_data` and the emitted events. -/
def newsStage (nf : NewsFetch) : List (List String) × List NewsEvent :=
  match nf with
  | .exn m => ([], [.errNewsExn m])
  | .response r =>
      if r.status ≠ 200 then ([], [.errHttp r.status r.text])
      else
        match r.docs? with
        | none => ([], [.errFormat])
        | some docs =>
            if docs.isEmpty then ([], [.infoNoNews])
            else ((docs.take 5).map mkNewsRow,
              (docs.take 5).map (fun a => .showArticle (a.headline.getD "No headline available"))
                ++ [.exportOffered])

/-- Number of articles displayed in a run of the news section. -/
def shownCount (events : List NewsEvent) : ℕ :=
  events.countP (fun ev => match ev with | .showArticle _ => true | _ => false)

/-- Evaluation of the news section on a 200 response carrying a nonempty
article list: the first (up to) 5 articles are displayed and collected. -/
theorem newsStage_response_eq (tx : String) (docs : List Article) (hne : docs ≠ []) :
    newsStage (.response ⟨200, tx, some docs⟩) =
      ((docs.take 5).map mkNewsRow,
        (docs.take 5).map
          (fun a => NewsEvent.showArticle (a.headline.getD "No headline available"))
          ++ [NewsEvent.exportOffered]) := by
  have hemp : docs.isEmpty = false := by
    cases docs with
    | nil => exact absurd rfl hne
    | cons a l => rfl
  simp [newsStage, hemp]

/-- The count of displayed articles in a list of `showArticle` events built
from an article list is the length of that list. -/
theorem countP_show_map (l : List Article) :
    List.countP (fun ev => match ev with | NewsEvent.showArticle _ => true | _ => false)
      (l.map (fun a => NewsEvent.showArticle (a.headline.getD "No headline available"))) =
      l.length := by
  induction l with
  | nil => rfl
  | cons a t ih => simp [List.countP_cons, ih]

/-- At most 5 articles are ever displayed, whatever the news fetch yields. -/
theorem shownCount_le_five (nf : NewsFetch) : shownCount (newsStage nf).2 ≤ 5 := by
  cases nf with
  | exn m => simp [newsStage, shownCount]
  | response r =>
      obtain ⟨st, tx, docs?⟩ := r
      by_cases hst : st = 200
      · subst hst
        cases docs? with
        | none => simp [newsStage, shownCount]
        | some docs =>
            cases hdocs : docs.isEmpty with
            | true => simp [newsStage, shownCount, hdocs]
            | false =>
                have hne : docs ≠ [] := by
                  intro h0
                  rw [h0] at hdocs
                  cases hdocs
                rw [newsStage_response_eq tx docs hne]
                unfold shownCount
                rw [List.countP_append, countP_show_map]
                have h2 : (docs.take 5).length ≤ 5 := by
                  rw [List.length_take]
                  exact min_le_left 5 docs.length
                have h3 : List.countP
                    (fun ev => match ev with | NewsEvent.showArticle _ => true | _ => false)
                    [NewsEvent.exportOffered] = 0 := rfl
                rw [h3]
                omega
      · simp [newsStage, shownCount, hst]

/-- C10 (confirmed): for every news-API response (here a 200 response
carrying a nonempty article list), at most the first 5 returned articles are
displayed, and the exported news CSV is the header row
`Headline, Published Date, Abstract, URL, Relevance` followed by exactly one
row per displayed article (so at most 5 data rows); for every other response
no article is displayed either. -/
theorem news_display_and_csv (tx : String) (docs : List Article) (h : docs ≠ []) :
    (newsStage (.response ⟨200, tx, some docs⟩)).1 = (docs.take 5).map mkNewsRow ∧
    (newsStage (.response ⟨200, tx, some docs⟩)).1.length = min 5 docs.length ∧
    (newsStage (.response ⟨200, tx, some docs⟩)).1.length ≤ 5 ∧
    export_news_to_csv (newsStage (.response ⟨200, tx, some docs⟩)).1 =
      ["Headline", "Published Date", "Abstract", "URL", "Relevance"] ::
        (newsStage (.response ⟨200, tx, some docs⟩)).1 ∧
    shownCount (newsStage (.response ⟨200, tx, some docs⟩)).2 =
      (newsStage (.response ⟨200, tx, some docs⟩)).1.length ∧
    (∀ nf : NewsFetch, shownCount (newsStage nf).2 ≤ 5) := by
  rw [newsStage_response_eq tx docs h]
  refine ⟨rfl, ?_, ?_, rfl, ?_, shownCount_le_five⟩
  · rw [List.length_map, List.length_take]
  · rw [List.length_map, List.length_take]
    exact min_le_left _ _
  · unfold shownCount
    rw [List.countP_append, countP_show_map]
    have h3 : List.countP
        (fun ev => match ev with | NewsEvent.showArticle _ => true | _ => false)
        [NewsEvent.exportOffered] = 0 := rfl
    rw [h3, List.length_map]
    omega

/-- Article used as witness input for C10. -/
def articleW : Article := ⟨some "Quarterly results", some "2024-01-02", none, none, none⟩

/-- Witness for C10: a 200 response with a single article. -/
theorem news_display_and_csv_witness :
    [articleW] ≠ ([] : List Article) ∧
    ((newsStage (.response ⟨200, "", some [articleW]⟩)).1 =
      ([articleW].take 5).map mkNewsRow ∧
    (newsStage (.response ⟨200, "", some [articleW]⟩)).1.length = min 5 [articleW].length ∧
    (newsStage (.response ⟨200, "", some [articleW]⟩)).1.length ≤ 5 ∧
    export_news_to_csv (newsStage (.response ⟨200, "", some [articleW]⟩)).1 =
      ["Headline", "Published Date", "Abstract", "URL", "Relevance"] ::
        (newsStage (.response ⟨200, "", some [articleW]⟩)).1 ∧
    shownCount (newsStage (.response ⟨200, "", some [articleW]⟩)).2 =
      (newsStage (.response ⟨200, "", some [articleW]⟩)).1.length ∧
    (∀ nf : NewsFetch, shownCount (newsStage nf).2 ≤ 5)) :=
  ⟨by decide, news_display_and_csv "" [articleW] (by decide)⟩

/-- C7 (amended): exactly one API key, `NYT_API_KEY`, is read from the
process environment (main.py line 14); its absence does not crash startup —
the value is simply `None`, with no startup notice — and the news section
degrades: a non-200 response to the key-less request yields a user-visible
error message and no displayed articles or rows, and any exception in the
news block is likewise caught and surfaced as an error message. -/
theorem missing_api_key_degrades (env : String → Option String)
    (h : env "NYT_API_KEY" = none) (st : ℕ) (tx : String) (docs? : Option (List Article))
    (hst : st ≠ 200) :
    apiKeyNames = ["NYT_API_KEY"] ∧
    NYT_API_KEY env = none ∧
    newsStage (.response ⟨st, tx, docs?⟩) = ([], [NewsEvent.errHttp st tx]) ∧
    (∀ m, newsStage (.exn m) = ([], [NewsEvent.errNewsExn m])) := by
  refine ⟨rfl, h, ?_, fun m => rfl⟩
  simp [newsStage, hst]

/-- An environment with no variables set, used in the C7 witness. -/
def envW : String → Option String := fun _ => none

/-- Witness for C7 (amended): an empty environment and a 401 response. -/
theorem missing_api_key_degrades_witness :
    envW "NYT_API_KEY" = none ∧ (401 : ℕ) ≠ 200 ∧
    (apiKeyNames = ["NYT_API_KEY"] ∧
    NYT_API_KEY envW = none ∧
    newsStage (.response ⟨401, "Unauthorized", none⟩) =
      ([], [NewsEvent.errHttp 401 "Unauthorized"]) ∧
    (∀ m, newsStage (.exn m) = ([], [NewsEvent.errNewsExn m]))) :=
  ⟨rfl, by decide, missing_api_key_degrades envW rfl 401 "Unauthorized" none (by decide)⟩

/-- Counterexample to C7 as stated: the program reads one API key from the
environment, not two (`apiKeyNames` lists every `os.environ` access in the
source). -/
theorem two_api_keys_cex :
    apiKeyNames.length = 1 ∧ apiKeyNames.length ≠ 2 :=
  ⟨rfl, by decide⟩

/-- Outcome of `yf.Ticker(query).info` in `search_stocks` (database.py
lines 5-6): either the info dictionary (possibly empty, which is falsy in
Python), or a raised exception. -/
inductive InfoOutcome where
  | exn (msg : String)
  | ok (info : List (String × String))
deriving DecidableEq

/-- Python dictionary read `info.get(k)`: the value at key `k`, if any. -/
def lookupInfo (info : List (String × String)) (k : String) : Option String :=
  (info.find? (fun p => decide (p.1 = k))).map Prod.snd

/-- Embedding of `search_stocks` (database.py lines 3-17): an exception
anywhere in the `try` block (including the `KeyError` from `info['symbol']`
when the key is absent) is caught and yields `[]`; a falsy (empty) info dict
yields `[]`; otherwise a single record with keys `symbol`, `name`,
`exchange` is returned, with `'N/A'` defaults for the optional keys. -/
def search_stocks (res : InfoOutcome) : List (List (String × String)) :=
  match res with
  | .exn _ => []
  | .ok info =>
      if info.isEmpty then []
      else
        match lookupInfo info "symbol" with
        | none => []
        | some sym =>
            [[("symbol", sym),
              ("name", (lookupInfo info "longName").getD "N/A"),
              ("exchange", (lookupInfo info "exchange").getD "N/A")]]

/-- C9 (confirmed): for every lookup outcome, `search_stocks` returns either
the empty list or a singleton record whose keys are exactly
`symbol`, `name`, `exchange`; any lookup failure returns the empty list (the
function is total, modelling that no exception escapes). -/
theorem search_stocks_shape (res : InfoOutcome) :
    (search_stocks res = [] ∨
      ∃ r, search_stocks res = [r] ∧ r.map Prod.fst = ["symbol", "name", "exchange"]) ∧
    (∀ m, search_stocks (.exn m) = []) := by
  refine ⟨?_, fun m => rfl⟩
  cases res with
  | exn m => exact Or.inl rfl
  | ok info =>
      cases hemp : info.isEmpty with
      | true => exact Or.inl (by simp [search_stocks, hemp])
      | false =>
          cases hsym : lookupInfo info "symbol" with
          | none => exact Or.inl (by simp [search_stocks, hemp, hsym])
          | some sym =>
              exact Or.inr ⟨[("symbol", sym),
                ("name", (lookupInfo info "longName").getD "N/A"),
                ("exchange", (lookupInfo info "exchange").getD "N/A")],
                by simp [search_stocks, hemp, hsym], rfl⟩

/-- One entry of the historical-news fallback file described by the spec:
a flat record with columns (date, title, description), keyed by date. -/
structure NewsEntry where
  date : ℤ
  title : String
  description : String
deriving DecidableEq

/-- Modelled from the spec: the scan that selects, among the already-seen
entries, the one whose date has minimum absolute day-distance to the
requested date (earlier entries win ties).  The historical lookup table and
its nearest-date fallback appear in the specification (§3, §4, §6) but have
no source under `src/`. -/
def nearestFrom (q : ℤ) (b : NewsEntry) : List NewsEntry → NewsEntry
  | [] => b
  | e :: rest =>
      nearestFrom q (if (e.date - q).natAbs < (b.date - q).natAbs then e else b) rest

/-- Modelled from the spec: the historical-news lookup — return the entry
stored under the exact requested date when present, otherwise the entry
whose date has the minimum absolute day-distance to the requested date
(`none` only for an empty table). -/
def nearest_news_entry (table : List NewsEntry) (q : ℤ) : Option NewsEntry :=
  match table.find? (fun e => decide (e.date = q)) with
  | some e => some e
  | none =>
      match table with
      | [] => none
      | e :: rest => some (nearestFrom q e rest)

/-- Absolute difference of integers is symmetric. -/
theorem natAbs_sub_comm (a b : ℤ) : (a - b).natAbs = (b - a).natAbs := by
  omega

/-- The scan result is one of the scanned entries. -/
theorem nearestFrom_mem (q : ℤ) (b : NewsEntry) (l : List NewsEntry) :
    nearestFrom q b l ∈ b :: l := by
  induction l generalizing b with
  | nil => exact List.mem_cons_self b []
  | cons e rest ih =>
      show nearestFrom q (if (e.date - q).natAbs < (b.date - q).natAbs then e else b) rest ∈
        b :: e :: rest
      have h := ih (if (e.date - q).natAbs < (b.date - q).natAbs then e else b)
      rcases List.mem_cons.mp h with h1 | h1
      · rw [h1]
        by_cases hc : (e.date - q).natAbs < (b.date - q).natAbs
        · rw [if_pos hc]
          exact List.mem_cons_of_mem b (List.mem_cons_self e rest)
        · rw [if_neg hc]
          exact List.mem_cons_self b _
      · exact List.mem_cons_of_mem b (List.mem_cons_of_mem e h1)

/-- The scan result minimizes the absolute day-distance to the query over
all scanned entries. -/
theorem nearestFrom_min (q : ℤ) (b : NewsEntry) (l : List NewsEntry) :
    ∀ x ∈ b :: l, ((nearestFrom q b l).date - q).natAbs ≤ (x.date - q).natAbs := by
  induction l generalizing b with
  | nil =>
      intro x hx
      rcases List.mem_cons.mp hx with h1 | h1
      · rw [h1]
        exact le_refl _
      · cases h1
  | cons e rest ih =>
      intro x hx
      have hb'b : (((if (e.date - q).natAbs < (b.date - q).natAbs then e else b)).date - q).natAbs ≤
          (b.date - q).natAbs := by
        by_cases hc : (e.date - q).natAbs < (b.date - q).natAbs
        · rw [if_pos hc]
          exact le_of_lt hc
        · rw [if_neg hc]
      have hb'e : (((if (e.date - q).natAbs < (b.date - q).natAbs then e else b)).date - q).natAbs ≤
          (e.date - q).natAbs := by
        by_cases hc : (e.date - q).natAbs < (b.date - q).natAbs
        · rw [if_pos hc]
        · rw [if_neg hc]
          exact not_lt.mp hc
      have hself := ih (if (e.date - q).natAbs < (b.date - q).natAbs then e else b)
        (if (e.date - q).natAbs < (b.date - q).natAbs then e else b)
        (List.mem_cons_self _ rest)
      show ((nearestFrom q (if (e.date - q).natAbs < (b.date - q).natAbs then e else b)
        rest).date - q).natAbs ≤ (x.date - q).natAbs
      rcases List.mem_cons.mp hx with h1 | h1
      · rw [h1]
        exact le_trans hself hb'b
      · rcases List.mem_cons.mp h1 with h2 | h2
        · rw [h2]
          exact le_trans hself hb'e
        · exact ih (if (e.date - q).natAbs < (b.date - q).natAbs then e else b) x
            (List.mem_cons_of_mem _ h2)

/-- C8 (confirmed, spec-modelled): when the historical-news table has no
entry at the requested date, the returned entry is one whose date has the
minimum absolute day-distance to the requested date over the whole table;
in particular, for a two-entry table with dates on either side of the query,
whichever entry is strictly closer in days is returned. -/
theorem nearest_news_entry_spec (table : List NewsEntry) (q : ℤ) (e0 : NewsEntry)
    (h0 : e0 ∈ table) (hmiss : table.find? (fun e => decide (e.date = q)) = none) :
    (∃ r, nearest_news_entry table q = some r ∧ r ∈ table ∧
      ∀ e ∈ table, (r.date - q).natAbs ≤ (e.date - q).natAbs) ∧
    (∀ (e1 e2 : NewsEntry), e1.date < q → q < e2.date →
      (q - e1.date).natAbs < (e2.date - q).natAbs →
      nearest_news_entry [e1, e2] q = some e1) ∧
    (∀ (e1 e2 : NewsEntry), e1.date < q → q < e2.date →
      (e2.date - q).natAbs < (q - e1.date).natAbs →
      nearest_news_entry [e1, e2] q = some e2) := by
  refine ⟨?_, ?_, ?_⟩
  · cases table with
    | nil => cases h0
    | cons a rest =>
        refine ⟨nearestFrom q a rest, ?_, nearestFrom_mem q a rest, nearestFrom_min q a rest⟩
        unfold nearest_news_entry
        rw [hmiss]
  · intro e1 e2 h1 h2 hc
    have hmiss2 : List.find? (fun e => decide (e.date = q)) [e1, e2] = none := by
      simp [List.find?, decide_eq_false (ne_of_lt h1), decide_eq_false (ne_of_gt h2)]
    unfold nearest_news_entry
    rw [hmiss2]
    show some (if (e2.date - q).natAbs < (e1.date - q).natAbs then e2 else e1) = some e1
    have hng : ¬ ((e2.date - q).natAbs < (e1.date - q).natAbs) := by
      rw [natAbs_sub_comm e1.date q]
      omega
    rw [if_neg hng]
  · intro e1 e2 h1 h2 hc
    have hmiss2 : List.find? (fun e => decide (e.date = q)) [e1, e2] = none := by
      simp [List.find?, decide_eq_false (ne_of_lt h1), decide_eq_false (ne_of_gt h2)]
    unfold nearest_news_entry
    rw [hmiss2]
    show some (if (e2.date - q).natAbs < (e1.date - q).natAbs then e2 else e1) = some e2
    have hg : (e2.date - q).natAbs < (e1.date - q).natAbs := by
      rw [natAbs_sub_comm e1.date q]
      omega
    rw [if_pos hg]

/-- Two-entry table used in the C8 witness. -/
def tableW : List NewsEntry := [⟨0, "a", "x"⟩, ⟨10, "b", "y"⟩]

/-- Witness for C8: querying the two-entry table at day 3 (no exact hit). -/
theorem nearest_news_entry_spec_witness :
    (⟨0, "a", "x"⟩ : NewsEntry) ∈ tableW ∧
    tableW.find? (fun e => decide (e.date = 3)) = none ∧
    ((∃ r, nearest_news_entry tableW 3 = some r ∧ r ∈ tableW ∧
      ∀ e ∈ tableW, (r.date - 3).natAbs ≤ (e.date - 3).natAbs) ∧
    (∀ (e1 e2 : NewsEntry), e1.date < 3 → 3 < e2.date →
      ((3 : ℤ) - e1.date).natAbs < (e2.date - 3).natAbs →
      nearest_news_entry [e1, e2] 3 = some e1) ∧
    (∀ (e1 e2 : NewsEntry), e1.date < 3 → 3 < e2.date →
      (e2.date - 3).natAbs < ((3 : ℤ) - e1.date).natAbs →
      nearest_news_entry [e1, e2] 3 = some e2)) :=
  ⟨by decide, by decide, nearest_news_entry_spec tableW 3 ⟨0, "a", "x"⟩ (by decide) (by decide)⟩
